import Mathlib

/-!
Verification of the warenhaus storage engine against its specification.

The definitions below are a shallow embedding of the Rust sources:

* `src/server/src/storage/cell.rs`   — the cell codec (`Cell`, `to_bytes`,
  `from_bytes`, `from_json_value`);
* `src/server/src/storage/column.rs` — the column log replay
  (`process_record`, `load`);
* `src/server/src/storage/mod.rs`    — `ColumnLayout`, `Container`,
  `validate_fields`, `index`, `commit`, `all_rows`;
* `src/server/src/query/code_runner.rs` and the `InvokeMap` arm of
  `src/server/src/main.rs` — the per-row filter pipeline.

Machine integers are modelled as `Nat`/`Int` with explicit `% 2 ^ w`
reductions at the points where the Rust code truncates; `f64` values are
modelled by their 64-bit pattern (the codec only ever moves the bits, so
bit-pattern equality is exactly the "bitwise" relation of the spec); byte
streams are `List Nat` with each byte below 256; fallible code returns
`Option`/`Except`, and reachable `unwrap`/`panic!` sites are modelled as
explicit `panicked`-style constructors of the result types.
-/

/-! ## Little-endian byte helpers (byteorder crate semantics) -/

/-- Little-endian encoding of `n` into exactly `k` bytes, low byte first. -/
def nat_to_le : Nat → Nat → List Nat
  | 0, _ => []
  | k + 1, n => (n % 256) :: nat_to_le k (n / 256)

/-- Little-endian decoding of a byte list, low byte first. -/
def nat_from_le : List Nat → Nat
  | [] => 0
  | b :: bs => b + 256 * nat_from_le bs

theorem nat_to_le_length (k n : Nat) : (nat_to_le k n).length = k := by
  induction k generalizing n with
  | zero => rfl
  | succ k ih => simp [nat_to_le, ih]

theorem nat_from_le_to_le (k n : Nat) : nat_from_le (nat_to_le k n) = n % 256 ^ k := by
  induction k generalizing n with
  | zero => simp [nat_to_le, nat_from_le, Nat.mod_one]
  | succ k ih =>
    simp only [nat_to_le, nat_from_le, ih]
    have h : n % (256 * 256 ^ k) = n % 256 + 256 * (n / 256 % 256 ^ k) := Nat.mod_mul
    rw [Nat.pow_succ, Nat.mul_comm (256 ^ k) 256, h]

/-- Reading an `i64` bit pattern back as a signed value (two's complement). -/
def int64_of_nat (n : Nat) : Int :=
  if n % 2 ^ 64 < 2 ^ 63 then ((n % 2 ^ 64 : Nat) : Int)
  else ((n % 2 ^ 64 : Nat) : Int) - 2 ^ 64

/-- The `i64` two's-complement bit pattern of a signed value. -/
def int64_to_nat (v : Int) : Nat :=
  (v % (2 ^ 64 : Int)).toNat

theorem int64_roundtrip (v : Int) (h1 : -(2 ^ 63) ≤ v) (h2 : v < 2 ^ 63) :
    int64_of_nat (int64_to_nat v) = v := by
  unfold int64_of_nat int64_to_nat
  split <;> omega

/-! ## CRC-32/CKSUM (crc crate, `CRC_32_CKSUM`: poly `0x04c11db7`, init 0,
no reflection, final xor `0xffffffff`) -/

/-- One shift step of the non-reflected CRC-32/CKSUM register. -/
def crc32_step (c : Nat) : Nat :=
  if 2 ^ 31 ≤ c % 2 ^ 32 then ((c % 2 ^ 32) * 2 ^^^ 0x04c11db7) % 2 ^ 32
  else ((c % 2 ^ 32) * 2) % 2 ^ 32

/-- Fold one input byte into the CRC register (byte enters at the top). -/
def crc32_byte (c b : Nat) : Nat :=
  Nat.iterate crc32_step 8 ((c ^^^ (b % 256) * 2 ^ 24) % 2 ^ 32)

/-- CRC-32/CKSUM of a byte sequence, as computed by the `crc` crate. -/
def crc32 (data : List Nat) : Nat :=
  (data.foldl crc32_byte 0) ^^^ 0xffffffff

theorem crc32_step_lt (c : Nat) : crc32_step c < 2 ^ 32 := by
  unfold crc32_step
  split
  · exact Nat.mod_lt _ (by norm_num)
  · exact Nat.mod_lt _ (by norm_num)

theorem crc32_byte_lt (c b : Nat) : crc32_byte c b < 2 ^ 32 := by
  unfold crc32_byte
  rw [show (8 : Nat) = 7 + 1 from rfl, Function.iterate_succ_apply']
  exact crc32_step_lt _

theorem crc32_lt (data : List Nat) : crc32 data < 2 ^ 32 := by
  unfold crc32
  have hfold : ∀ (c : Nat), c < 2 ^ 32 → data.foldl crc32_byte c < 2 ^ 32 := by
    induction data with
    | nil => intro c hc; simpa using hc
    | cons b bs ih =>
      intro c _
      simp only [List.foldl_cons]
      exact ih _ (crc32_byte_lt c b)
  exact Nat.xor_lt_two_pow (hfold 0 (by norm_num)) (by norm_num)

/-! ## UTF-8 validity (Rust `String::from_utf8` acceptance condition) -/

/-- One-pass UTF-8 acceptor.  The state is the number of continuation
bytes still expected together with the admissible range `lo ..= hi` for
the NEXT byte (the first continuation byte of a sequence is
range-restricted to exclude overlong forms and surrogates, exactly as in
Rust's `String::from_utf8`; later continuation bytes use `80 ..= BF`). -/
def utf8_run : Nat → Nat → Nat → List Nat → Bool
  | 0, _, _, [] => true
  | _ + 1, _, _, [] => false
  | 0, _, _, b :: rest =>
    if b ≤ 0x7F then utf8_run 0 0 0 rest
    else if 0xC2 ≤ b ∧ b ≤ 0xDF then utf8_run 1 0x80 0xBF rest
    else if b = 0xE0 then utf8_run 2 0xA0 0xBF rest
    else if (0xE1 ≤ b ∧ b ≤ 0xEC) ∨ b = 0xEE ∨ b = 0xEF then utf8_run 2 0x80 0xBF rest
    else if b = 0xED then utf8_run 2 0x80 0x9F rest
    else if b = 0xF0 then utf8_run 3 0x90 0xBF rest
    else if 0xF1 ≤ b ∧ b ≤ 0xF3 then utf8_run 3 0x80 0xBF rest
    else if b = 0xF4 then utf8_run 3 0x80 0x8F rest
    else false
  | k + 1, lo, hi, b :: rest =>
    if lo ≤ b ∧ b ≤ hi then utf8_run k 0x80 0xBF rest else false

/-- The UTF-8 validity check applied by Rust's `String::from_utf8`
(shortest-form encodings only, surrogate range excluded). -/
def utf8_valid (l : List Nat) : Bool :=
  utf8_run 0 0 0 l

/-! ## Cells and the on-disk codec (`src/server/src/storage/cell.rs`) -/

/-- The four tagged scalar variants of `cell.rs`.  `Float` carries the
64-bit IEEE-754 bit pattern (the codec moves bits only, so bit-pattern
equality is the "bitwise" equality of the spec); `String` carries the
UTF-8 bytes backing the Rust `String`. -/
inductive Cell where
  | Int (v : Int)
  | Float (bits : Nat)
  | String (bytes : List Nat)
  | Boolean (b : Bool)
deriving DecidableEq, Repr

/-- Reading an `i64` with `byteorder`: consumes the first 8 bytes of the
cursor, fails (`UnexpectedEof`) when fewer than 8 bytes are available, and
ignores any bytes beyond the first 8. -/
def read_i64_le (data : List Nat) : Option Int :=
  if 8 ≤ data.length then some (int64_of_nat (nat_from_le (data.take 8))) else none

/-- Reading an `f64` with `byteorder`, as its 64-bit pattern. -/
def read_f64_le (data : List Nat) : Option Nat :=
  if 8 ≤ data.length then some (nat_from_le (data.take 8) % 2 ^ 64) else none

/-- `Cell::to_bytes`: returns `(checksum, tag, payload)`.  The in-memory
byte-buffer writes of the Rust code cannot fail, so the `io::Result`
wrapper is dropped. -/
def Cell.to_bytes : Cell → Nat × Nat × List Nat
  | .Int v =>
    let payload := nat_to_le 8 (int64_to_nat v)
    (crc32 payload, 1, payload)
  | .Float bits =>
    let payload := nat_to_le 8 (bits % 2 ^ 64)
    (crc32 payload, 2, payload)
  | .String bytes => (crc32 bytes, 3, bytes)
  | .Boolean b =>
    let payload := nat_to_le 8 (if b then 1 else 0)
    (crc32 payload, 4, payload)

/-- `Cell::from_bytes`: tag-dispatched decoding of a payload. -/
def Cell.from_bytes (tag_byte : Nat) (data : List Nat) : Option Cell :=
  if tag_byte = 1 then (read_i64_le data).map Cell.Int
  else if tag_byte = 2 then (read_f64_le data).map Cell.Float
  else if tag_byte = 3 then
    if utf8_valid data then some (Cell.String data) else none
  else if tag_byte = 4 then (read_i64_le data).map (fun v => Cell.Boolean (v = 1))
  else none

/-! ## Dynamic external values (`serde_json::Value`)

`serde_json` stores a JSON number as one of `PosInt(u64)`, `NegInt(i64)`
(always negative) or `Float(f64)`; `JNumber` mirrors that representation,
with the float again carried as its bit pattern.  The payloads of arrays
and objects are never inspected by any code embedded here, so they are
elided from the `Json` type. -/

inductive JNumber where
  | posInt (n : Nat)
  | negInt (v : Int)
  | float (bits : Nat)
deriving DecidableEq, Repr

/-- `serde_json::Number::is_i64`. -/
def JNumber.is_i64 : JNumber → Bool
  | .posInt n => decide (n ≤ 2 ^ 63 - 1)
  | .negInt _ => true
  | .float _ => false

/-- `serde_json::Number::is_u64`. -/
def JNumber.is_u64 : JNumber → Bool
  | .posInt _ => true
  | .negInt _ => false
  | .float _ => false

/-- `serde_json::Number::as_i64`. -/
def JNumber.as_i64 : JNumber → Option Int
  | .posInt n => if n ≤ 2 ^ 63 - 1 then some (n : Int) else none
  | .negInt v => some v
  | .float _ => none

inductive Json where
  | null
  | bool (b : Bool)
  | num (n : JNumber)
  | str (bytes : List Nat)
  | arr
  | obj
deriving DecidableEq, Repr

/-- `serde_json::Value::is_i64`. -/
def Json.is_i64 : Json → Bool
  | .num n => n.is_i64
  | _ => false

/-- `serde_json::Value::is_f64` (true exactly on the float representation). -/
def Json.is_f64 : Json → Bool
  | .num (.float _) => true
  | _ => false

/-- `serde_json::Value::is_string`. -/
def Json.is_string : Json → Bool
  | .str _ => true
  | _ => false

/-- `serde_json::Value::is_boolean`. -/
def Json.is_boolean : Json → Bool
  | .bool _ => true
  | _ => false

/-- Outcome of `Cell::from_json_value`; `panicked` marks a reachable
`unwrap` on `None`. -/
inductive FromJsonResult where
  | panicked
  | ok (c : Option Cell)
deriving DecidableEq, Repr

/-- `Cell::from_json_value`.  In the number branch the code tests
`is_i64() || is_u64()` and then calls `as_i64().unwrap()`, which panics
for a `u64`-only value; the `else` branch is reached exactly for the
float representation (both integer representations satisfy the guard),
where `as_f64().unwrap()` returns the float itself — the integer cases of
that `match` are unreachable and modelled as the panic of the `unwrap`. -/
def Cell.from_json_value : Json → FromJsonResult
  | .null => .ok none
  | .bool b => .ok (some (Cell.Boolean b))
  | .num n =>
    if n.is_i64 || n.is_u64 then
      match n.as_i64 with
      | some v => .ok (some (Cell.Int v))
      | none => .panicked
    else
      match n with
      | .float bits => .ok (some (Cell.Float bits))
      | _ => .panicked
  | .str bytes => .ok (some (Cell.String bytes))
  | .arr => .ok none
  | .obj => .ok none

/-! ## Claim C4: codec round-trip -/

/-- Well-formedness of a cell as representable by the Rust types: the
integer fits `i64`, the float pattern fits 64 bits, the string bytes are
the backing store of a Rust `String` (valid UTF-8). -/
def Cell.wf : Cell → Prop
  | .Int v => -(2 ^ 63) ≤ v ∧ v < 2 ^ 63
  | .Float bits => bits < 2 ^ 64
  | .String bytes => utf8_valid bytes = true
  | .Boolean _ => True

theorem take_nat_to_le (k n : Nat) : (nat_to_le k n).take k = nat_to_le k n :=
  List.take_of_length_le (le_of_eq (nat_to_le_length k n))

theorem nat_from_le_to_le_8 (n : Nat) (h : n < 2 ^ 64) :
    nat_from_le (nat_to_le 8 n) = n := by
  rw [nat_from_le_to_le]
  have h8 : (256 : Nat) ^ 8 = 2 ^ 64 := by norm_num
  omega

theorem int64_to_nat_lt (v : Int) : int64_to_nat v < 2 ^ 64 := by
  unfold int64_to_nat
  have h1 := Int.emod_nonneg v (show (2 ^ 64 : Int) ≠ 0 by norm_num)
  have h2 := Int.emod_lt_of_pos v (show (0 : Int) < 2 ^ 64 by norm_num)
  omega

/-- C4: for every representable cell `c` (integers in `i64` range, floats
taken as 64-bit patterns — including NaN and infinities — UTF-8 strings
including non-ASCII ones, booleans), decoding the tag and payload produced
by `Cell::to_bytes` yields `c` back bitwise; booleans travel as the
64-bit payload 1 or 0 and decode through the `== 1` comparison. -/
theorem cell_codec_roundtrip (c : Cell) (h : c.wf) :
    Cell.from_bytes c.to_bytes.2.1 c.to_bytes.2.2 = some c := by
  cases c with
  | Int v =>
    obtain ⟨h1, h2⟩ := h
    simp only [Cell.to_bytes, Cell.from_bytes, read_i64_le, if_pos rfl,
      nat_to_le_length, take_nat_to_le, if_pos (le_refl 8)]
    rw [nat_from_le_to_le_8 _ (int64_to_nat_lt v), int64_roundtrip v h1 h2]
    rfl
  | Float bits =>
    have hb : bits % 2 ^ 64 = bits := Nat.mod_eq_of_lt h
    simp only [Cell.to_bytes, Cell.from_bytes, read_f64_le, if_pos rfl,
      nat_to_le_length, take_nat_to_le, if_pos (le_refl 8)]
    rw [nat_from_le_to_le_8 _ (Nat.mod_lt _ (by norm_num)), hb, hb]
    norm_num
  | String bytes =>
    have h3 : utf8_valid bytes = true := h
    simp only [Cell.to_bytes, Cell.from_bytes]
    norm_num [h3]
  | Boolean b =>
    cases b with
    | true =>
      simp only [Cell.to_bytes, Cell.from_bytes, read_i64_le, if_pos rfl,
        nat_to_le_length, take_nat_to_le, if_pos (le_refl 8)]
      rw [nat_from_le_to_le_8 _ (by norm_num)]
      rfl
    | false =>
      simp only [Cell.to_bytes, Cell.from_bytes, read_i64_le, if_pos rfl,
        nat_to_le_length, take_nat_to_le, if_pos (le_refl 8)]
      rw [nat_from_le_to_le_8 _ (by norm_num)]
      rfl

/-- Witness for C4 at the non-ASCII string "é" (bytes C3 A9). -/
theorem cell_codec_roundtrip_witness :
    Cell.from_bytes (Cell.String [195, 169]).to_bytes.2.1
      (Cell.String [195, 169]).to_bytes.2.2 = some (Cell.String [195, 169]) :=
  cell_codec_roundtrip (Cell.String [195, 169])
    (show utf8_valid [195, 169] = true from rfl)

/-! ## Claim C9: decode acceptance conditions per tag -/

/-- C9 counterexample: the integer tag decodes a NINE-byte payload
successfully (the cursor reads the first 8 bytes and ignores the rest),
contradicting the claim that decoding fails on payloads longer than 8. -/
theorem from_bytes_succeeds_on_nine_byte_int_payload :
    Cell.from_bytes 1 [0, 0, 0, 0, 0, 0, 0, 0, 0] = some (Cell.Int 0) := by
  decide

/-- C9 amended: decoding with the integer, float, or boolean tag succeeds
exactly when the payload has AT LEAST 8 bytes (the first 8 are used, any
excess is ignored); the string tag succeeds exactly on valid UTF-8 of any
length; every other tag yields a decode failure. -/
theorem from_bytes_success_characterization (tag_byte : Nat) (data : List Nat) :
    (Cell.from_bytes tag_byte data).isSome =
      (if tag_byte = 1 ∨ tag_byte = 2 ∨ tag_byte = 4 then decide (8 ≤ data.length)
       else if tag_byte = 3 then utf8_valid data
       else false) := by
  unfold Cell.from_bytes read_i64_le read_f64_le
  by_cases h1 : tag_byte = 1 <;> by_cases h2 : tag_byte = 2 <;>
    by_cases h3 : tag_byte = 3 <;> by_cases h4 : tag_byte = 4 <;>
    simp [h1, h2, h3, h4] <;> split <;> simp_all

/-! ## Claim C5: classification of dynamic external values -/

/-- C5: `Cell::from_json_value` PANICS on the number 9223372036854775808
(2^63, a `u64` exceeding `i64::MAX`): the guard `is_i64() || is_u64()`
admits it, and then `as_i64().unwrap()` unwraps `None`.  The claim (and
spec) say such numbers become Float cells and the conversion never
panics. -/
theorem from_json_value_panics_on_large_u64 :
    Cell.from_json_value (Json.num (JNumber.posInt 9223372036854775808)) =
      FromJsonResult.panicked := by
  decide

/-! ## Column log replay (`src/server/src/storage/column.rs`) -/

/-- Outcome of `Column::process_record` on the remaining byte stream.
`eof` is the `UnexpectedEof` that ends replay cleanly; `corrupted` is the
`panic!` on a checksum mismatch; `undecodable` is the panic of the
`Cell::from_bytes(tag_byte, data).unwrap()` on `None`. -/
inductive RecordResult where
  | eof
  | corrupted
  | undecodable
  | ok (c : Cell) (rest : List Nat)
deriving DecidableEq, Repr

/-- `Column::process_record`: read a 4-byte checksum, 1-byte tag and
4-byte length, then take up to `val_len` payload bytes (`take(n)` +
`read_to_end` reads what is available without erroring; the
`debug_assert_eq` is compiled out in release builds), verify the CRC and
decode.  All reads are little-endian. -/
def process_record (s : List Nat) : RecordResult :=
  if s.length < 4 then .eof
  else
    match s.drop 4 with
    | [] => .eof
    | tag_byte :: s2 =>
      if s2.length < 4 then .eof
      else
        if crc32 ((s2.drop 4).take (nat_from_le (s2.take 4))) ≠ nat_from_le (s.take 4) then
          .corrupted
        else
          match Cell.from_bytes tag_byte ((s2.drop 4).take (nat_from_le (s2.take 4))) with
          | some c => .ok c ((s2.drop 4).drop (nat_from_le (s2.take 4)))
          | none => .undecodable

/-- Result of `Column::load` replay: either the decoded in-memory vector
or a panic (checksum mismatch or undecodable record). -/
inductive LoadResult where
  | panicked
  | ok (cells : List Cell)
deriving DecidableEq, Repr

theorem process_record_rest_length {s : List Nat} {c : Cell} {rest : List Nat}
    (h : process_record s = .ok c rest) : rest.length < s.length := by
  unfold process_record at h
  split at h
  · exact absurd h (by simp)
  · rename_i hs4
    split at h
    · exact absurd h (by simp)
    · rename_i tag_byte s2 heq
      split at h
      · exact absurd h (by simp)
      · rename_i hs24
        split at h
        · exact absurd h (by simp)
        · split at h
          · rename_i cc hdec
            rw [RecordResult.ok.injEq] at h
            obtain ⟨-, hrest⟩ := h
            subst hrest
            have h1 : (List.drop 4 s).length = s.length - 4 := List.length_drop 4 s
            have h2 : (List.drop 4 s).length = s2.length + 1 := by rw [heq]; rfl
            have h3 : ((List.drop 4 s2).drop (nat_from_le (List.take 4 s2))).length
                ≤ (List.drop 4 s2).length := by
              rw [List.length_drop]
              exact Nat.sub_le _ _
            have h4 : (List.drop 4 s2).length = s2.length - 4 := List.length_drop 4 s2
            omega
          · exact absurd h (by simp)

/-- `Column::load`: replay records from the start of the file until
`UnexpectedEof`, pushing each decoded cell; a record-level panic aborts
the process. -/
def column_load : List Nat → LoadResult
  | s =>
    match h : process_record s with
    | .eof => .ok []
    | .corrupted => .panicked
    | .undecodable => .panicked
    | .ok c rest =>
      match column_load rest with
      | .ok cells => .ok (c :: cells)
      | .panicked => .panicked
termination_by s => s.length
decreasing_by exact process_record_rest_length h

/-! ## Claim C10: checksum-valid but undecodable records panic the load -/

theorem process_record_frame (tag_byte : Nat) (data : List Nat)
    (h_len : data.length < 2 ^ 32) :
    process_record (nat_to_le 4 (crc32 data) ++ tag_byte :: (nat_to_le 4 data.length ++ data)) =
      (match Cell.from_bytes tag_byte data with
       | some c => RecordResult.ok c []
       | none => RecordResult.undecodable) := by
  have hcs : (nat_to_le 4 (crc32 data)).length = 4 := nat_to_le_length _ _
  have hls : (nat_to_le 4 data.length).length = 4 := nat_to_le_length _ _
  have hfromcs : nat_from_le (nat_to_le 4 (crc32 data)) = crc32 data := by
    rw [nat_from_le_to_le]
    have h1 := crc32_lt data
    have h2 : (256 : Nat) ^ 4 = 2 ^ 32 := by norm_num
    omega
  have hfromls : nat_from_le (nat_to_le 4 data.length) = data.length := by
    rw [nat_from_le_to_le]
    have h2 : (256 : Nat) ^ 4 = 2 ^ 32 := by norm_num
    omega
  have hnot1 : ¬ ((nat_to_le 4 (crc32 data) ++
      tag_byte :: (nat_to_le 4 data.length ++ data)).length < 4) := by
    simp only [List.length_append, List.length_cons, hcs, hls]
    omega
  have hnot2 : ¬ ((nat_to_le 4 data.length ++ data).length < 4) := by
    simp only [List.length_append, hls]
    omega
  unfold process_record
  rw [if_neg hnot1, List.take_left' hcs, List.drop_left' hcs]
  dsimp only
  rw [if_neg hnot2, List.take_left' hls, hfromls, List.drop_left' hls,
    List.take_length, List.drop_length, hfromcs,
    if_neg (fun hne => hne rfl)]

/-- C10: during `Column::load`, a framed record whose stored checksum
matches the CRC-32/CKSUM of its payload but whose payload `Cell::from_bytes`
rejects (unknown tag byte, fixed-width payload shorter than 8 bytes, or a
non-UTF-8 string payload) panics the load — the `unwrap` after
`from_bytes` is reachable — instead of returning an error. -/
theorem column_load_panics_on_undecodable_record (tag_byte : Nat) (data : List Nat)
    (h_undec : Cell.from_bytes tag_byte data = none)
    (h_len : data.length < 2 ^ 32) :
    column_load (nat_to_le 4 (crc32 data) ++ tag_byte :: (nat_to_le 4 data.length ++ data)) =
      LoadResult.panicked := by
  have hrec := process_record_frame tag_byte data h_len
  rw [h_undec] at hrec
  rw [column_load]
  split
  · rename_i heq
    rw [hrec] at heq
    exact absurd heq (by simp)
  · rfl
  · rfl
  · rename_i c rest heq
    rw [hrec] at heq
    exact absurd heq (by simp)

/-- Witness for C10: a record framing the empty payload under the unknown
tag byte 5; the stored checksum is the CKSUM of the empty payload, so the
CRC check passes and the decode `unwrap` panics. -/
theorem column_load_panics_on_undecodable_record_witness :
    column_load (nat_to_le 4 (crc32 []) ++ 5 :: (nat_to_le 4 (List.length ([] : List Nat)) ++ [])) =
      LoadResult.panicked :=
  column_load_panics_on_undecodable_record 5 [] rfl (by norm_num)

/-! ## Storage model (`src/server/src/storage/mod.rs`) -/

/-- `DataType` from `data_type.rs`. -/
inductive DataType where
  | Int
  | Float
  | String
  | Boolean
deriving DecidableEq, Repr

/-- `DataType::is_compatible` against a dynamic external value. -/
def DataType.is_compatible : DataType → Json → Bool
  | .Int, v => v.is_i64
  | .Float, v => v.is_f64
  | .String, v => v.is_string
  | .Boolean, v => v.is_boolean

/-- `DataTypeConfig` from `config.rs`. -/
inductive DataTypeConfig where
  | Int
  | Float
  | String
  | Boolean
deriving DecidableEq, Repr

/-- `impl From<DataTypeConfig> for DataType`. -/
def DataTypeConfig.toDataType : DataTypeConfig → DataType
  | .Int => .Int
  | .Float => .Float
  | .String => .String
  | .Boolean => .Boolean

/-- `ColumnConfig` from `config.rs`. -/
structure ColumnConfig where
  name : String
  data_type : DataTypeConfig
deriving DecidableEq, Repr

/-- `SchemaConfig` from `config.rs`. -/
structure SchemaConfig where
  columns : List ColumnConfig
  add_timestamp_column : Bool
deriving DecidableEq, Repr

/-- A `Column` as held in memory: name, declared type, decoded entries.
The file handle lives in the `Disk` model below. -/
structure Column where
  name : String
  data_type : DataType
  entries : List Cell
deriving DecidableEq, Repr

/-- `Column::insert` restricted to its in-memory effect (the vector push);
the file append is applied to the `Disk` model separately. -/
def Column.insert (c : Column) (cell : Cell) : Column :=
  { c with entries := c.entries ++ [cell] }

/-- `ColumnLayout`: ordered columns plus the persisted (name, type) list. -/
structure ColumnLayout where
  columns : List Column
  column_names_ordered : List (String × DataType)
deriving DecidableEq, Repr

/-- `ColumnLayout::len`. -/
def ColumnLayout.len (L : ColumnLayout) : Nat :=
  L.columns.length

/-- `ColumnLayout::column_names`. -/
def ColumnLayout.column_names (L : ColumnLayout) : List String :=
  L.columns.map Column.name

/-- `ColumnLayout::timestamp_column`. -/
def ColumnLayout.timestamp_column (L : ColumnLayout) : Option Column :=
  L.columns.find? (fun c => c.name == "timestamp")

/-- `ColumnLayout::find_column`. -/
def ColumnLayout.find_column (L : ColumnLayout) (column_name : String) : Option Column :=
  L.columns.find? (fun column => column.name == column_name)

/-- One step of `ColumnLayout::commit`: append `cell` to the FIRST column
named `column_name` (`iter_mut().find(..)`); `none` models the panic of
the `unwrap` when no column carries that name. -/
def commit_cell : List Column → String → Cell → Option (List Column)
  | [], _, _ => none
  | col :: cols, column_name, cell =>
    if col.name == column_name then some (col.insert cell :: cols)
    else (commit_cell cols column_name cell).map (fun cs => col :: cs)

/-- `ColumnLayout::commit`: append each staged cell to its column, in
staging order; `none` models the `unwrap` panic on an unknown name.  The
per-cell file write cannot fail in the in-memory model. -/
def ColumnLayout.commit : ColumnLayout → List (String × Cell) → Option ColumnLayout
  | L, [] => some L
  | L, (column_name, cell) :: rest =>
    match commit_cell L.columns column_name cell with
    | none => none
    | some cols => ColumnLayout.commit { L with columns := cols } rest

/-- `ColumnFrame` from `column_frame.rs`: parallel name/value vectors. -/
structure ColumnFrame where
  column_names : List String
  column_values : List Cell
deriving DecidableEq, Repr

/-- The frame assembled by `all_rows` for row `n`: one `(name, cell)` pair
per column, in layout order.  The `get(n).unwrap()` of the source is in
range whenever `n` is below every column's length (guaranteed by the
length check in `all_rows`), so the `getD` default is never produced. -/
def frame_at (columns : List Column) (n : Nat) : ColumnFrame :=
  { column_names := columns.map Column.name,
    column_values := columns.map (fun c => c.entries.getD n (Cell.Int 0)) }

/-- `ColumnLayout::all_rows`.  `none` models the two panics: indexing
`columns[0]` on an empty layout, and the corruption panic when column
lengths disagree. -/
def ColumnLayout.all_rows (L : ColumnLayout) : Option (List ColumnFrame) :=
  match L.columns with
  | [] => none
  | c0 :: _ =>
    if L.columns.all (fun c => c.entries.length == c0.entries.length) then
      some ((List.range c0.entries.length).map (frame_at L.columns))
    else none

/-- `IndexParams` from `web.rs`. -/
structure IndexParams where
  fields : List String
  values : List Json
deriving DecidableEq, Repr

/-- `ContainerError` from `mod.rs` (payloads of the `IoError` and
`IndexError` sources elided — neither is producible in the in-memory
model). -/
inductive ContainerError where
  | InvalidFields (names : List String)
  | InvalidDataType (value : Json) (data_type : DataType)
  | FieldCountMismatch (a b : Nat)
  | IoError
  | MissingTimestampColumn
  | IndexError
deriving DecidableEq, Repr

/-- `Container`: schema config, column layout and the auto-index counter
(`AutoIndex.counter`, an `i64`). -/
structure Container where
  config : SchemaConfig
  columns : ColumnLayout
  index_counter : Int
deriving DecidableEq, Repr

/-- `Container::validate_fields`, with the checks in source order:
total-column-count match, reserved `timestamp` field, unknown fields,
fields/values length match. -/
def Container.validate_fields (c : Container) (params : IndexParams) :
    Except ContainerError Unit :=
  if c.columns.len ≠ (if c.config.add_timestamp_column then params.fields.length + 2
      else params.fields.length + 1) then
    .error (.FieldCountMismatch c.columns.len params.fields.length)
  else if c.config.add_timestamp_column && params.fields.contains "timestamp" then
    .error (.InvalidFields ["timestamp"])
  else if (params.fields.filter (fun f => !(c.columns.column_names.contains f))).length > 0 then
    .error (.InvalidFields (params.fields.filter (fun f => !(c.columns.column_names.contains f))))
  else if params.fields.length ≠ params.values.length then
    .error (.FieldCountMismatch params.fields.length params.values.length)
  else
    .ok ()

/-- Outcome of the staging loop of `Container::index` over the caller's
fields: `panicked` covers the three `unwrap`s (missing value, missing
column, failed conversion — the last unreachable after the compatibility
check), `incompatible` is the early return that triggers the rollback. -/
inductive StageResult where
  | panicked
  | incompatible (value : Json) (data_type : DataType)
  | staged (pairs : List (String × Cell))
deriving DecidableEq, Repr

/-- The `for (index, column_name) in params.fields.iter().enumerate()`
loop of `Container::index`: look the value and column up, check type
compatibility, convert, and accumulate `(name, cell)` pairs in field
order. -/
def stage_fields (c : Container) : List String → List Json → StageResult
  | [], _ => .staged []
  | _ :: _, [] => .panicked
  | column_name :: fs, value :: vs =>
    match c.columns.find_column column_name with
    | none => .panicked
    | some db_column =>
      if db_column.data_type.is_compatible value then
        match Cell.from_json_value value with
        | .ok (some cell) =>
          match stage_fields c fs vs with
          | .staged pairs => .staged ((column_name, cell) :: pairs)
          | other => other
        | _ => .panicked
      else .incompatible value db_column.data_type

/-- Result of `Container::index`, carrying the post-call container state
on both failure and success (the Rust method takes `&mut self`). -/
inductive IndexResult where
  | panicked
  | failed (c : Container) (e : ContainerError)
  | ok (c : Container)
deriving DecidableEq, Repr

/-- `Container::index`.  `now` is the wall-clock seconds value the code
reads from `SystemTime::now()` at the timestamp-staging point.  Steps in
source order: validate; `index_counter.next()` (increment); stage the
`id` cell; if a timestamp is configured, stage it or fail
*MissingTimestampColumn* (note: WITHOUT rolling the counter back); stage
the user fields, rolling back and failing *InvalidDataType* on a type
mismatch; finally `commit` (column appends, then the counter persist,
neither of which can fail in the in-memory model). -/
def Container.index (c : Container) (now : Int) (params : IndexParams) : IndexResult :=
  match c.validate_fields params with
  | .error e => .failed c e
  | .ok _ =>
    if c.config.add_timestamp_column ∧ c.columns.timestamp_column = none then
      .failed { c with index_counter := c.index_counter + 1 } .MissingTimestampColumn
    else
      match stage_fields c params.fields params.values with
      | .panicked => .panicked
      | .incompatible v dt =>
        .failed { c with index_counter := c.index_counter + 1 - 1 } (.InvalidDataType v dt)
      | .staged pairs =>
        match c.columns.commit
            (("id", Cell.Int (c.index_counter + 1)) ::
              ((if c.config.add_timestamp_column then [("timestamp", Cell.Int now)] else []) ++
                pairs)) with
        | none => .panicked
        | some L2 => .ok { c with columns := L2, index_counter := c.index_counter + 1 }

/-! ## Validation lemmas -/

theorem validate_fields_ok_facts (c : Container) (p : IndexParams)
    (h : c.validate_fields p = .ok ()) :
    c.columns.len = (if c.config.add_timestamp_column then p.fields.length + 2
      else p.fields.length + 1) ∧
    (c.config.add_timestamp_column = true → "timestamp" ∉ p.fields) ∧
    (∀ f ∈ p.fields, f ∈ c.columns.column_names) ∧
    p.fields.length = p.values.length := by
  unfold Container.validate_fields at h
  by_cases h1 : c.columns.len ≠ (if c.config.add_timestamp_column then p.fields.length + 2
      else p.fields.length + 1)
  · rw [if_pos h1] at h
    exact absurd h (by simp)
  · rw [if_neg h1] at h
    by_cases h2 : (c.config.add_timestamp_column && p.fields.contains "timestamp") = true
    · rw [if_pos h2] at h
      exact absurd h (by simp)
    · rw [if_neg h2] at h
      by_cases h3 :
          (p.fields.filter (fun f => !(c.columns.column_names.contains f))).length > 0
      · rw [if_pos h3] at h
        exact absurd h (by simp)
      · rw [if_neg h3] at h
        by_cases h4 : p.fields.length ≠ p.values.length
        · rw [if_pos h4] at h
          exact absurd h (by simp)
        · push_neg at h1 h4
          refine ⟨h1, ?_, ?_, h4⟩
          · intro hts hmem
            rw [Bool.and_eq_true] at h2
            push_neg at h2
            exact h2 hts (List.elem_iff.mpr hmem)
          · intro f hf
            rw [gt_iff_lt, List.length_pos] at h3
            push_neg at h3
            rw [List.filter_eq_nil_iff] at h3
            have := h3 f hf
            simp only [Bool.not_eq_true', Bool.not_eq_false] at this
            exact List.elem_iff.mp this

theorem validate_fields_error_shape (c : Container) (p : IndexParams) (e : ContainerError)
    (h : c.validate_fields p = .error e) :
    e ≠ ContainerError.MissingTimestampColumn ∧
    (∀ v dt, e ≠ ContainerError.InvalidDataType v dt) := by
  unfold Container.validate_fields at h
  by_cases h1 : c.columns.len ≠ (if c.config.add_timestamp_column then p.fields.length + 2
      else p.fields.length + 1)
  · rw [if_pos h1, Except.error.injEq] at h
    subst h
    exact ⟨by simp, by simp⟩
  · rw [if_neg h1] at h
    by_cases h2 : (c.config.add_timestamp_column && p.fields.contains "timestamp") = true
    · rw [if_pos h2, Except.error.injEq] at h
      subst h
      exact ⟨by simp, by simp⟩
    · rw [if_neg h2] at h
      by_cases h3 :
          (p.fields.filter (fun f => !(c.columns.column_names.contains f))).length > 0
      · rw [if_pos h3, Except.error.injEq] at h
        subst h
        exact ⟨by simp, by simp⟩
      · rw [if_neg h3] at h
        by_cases h4 : p.fields.length ≠ p.values.length
        · rw [if_pos h4, Except.error.injEq] at h
          subst h
          exact ⟨by simp, by simp⟩
        · rw [if_neg h4] at h
          exact absurd h (by simp)

/-! ## Claim C7: the arguments of FieldCountMismatch -/

/-- A freshly opened column with no entries. -/
def empty_column (nm : String) (dt : DataType) : Column :=
  Column.mk nm dt []

/-- Shared example container: schema `url: String` with the automatic
timestamp column; layout `id`, `url`, `timestamp`, all empty. -/
def c7_container : Container :=
  Container.mk
    (SchemaConfig.mk [ColumnConfig.mk "url" DataTypeConfig.String] true)
    (ColumnLayout.mk
      [empty_column "id" DataType.Int,
       empty_column "url" DataType.String,
       empty_column "timestamp" DataType.Int]
      [("id", DataType.Int), ("url", DataType.String), ("timestamp", DataType.Int)])
    0

/-- C7 counterexample: on a layout of 3 columns (`id`, `url`, `timestamp`)
with the timestamp configured there is exactly 1 user column, yet an
index call with 2 fields fails with `FieldCountMismatch(3, 2)` — the
reported "expected" count is the TOTAL column count 3, not the
user-column count `len(layout.columns) - 1 - 1 = 1` stated by the
claim. -/
theorem field_count_mismatch_counterexample :
    Container.index c7_container 0 (IndexParams.mk ["a", "b"] [Json.null, Json.null]) =
        IndexResult.failed c7_container (ContainerError.FieldCountMismatch 3 2) ∧
      c7_container.columns.len - 1 - 1 = 1 ∧ (3 : Nat) ≠ 1 := by
  refine ⟨?_, rfl, by decide⟩
  rfl

/-- C7 amended: whenever the caller's field count differs from the
user-column count (`len(layout.columns) - 1 - (1 if timestamp else 0)`,
computed over `Int` to avoid truncation), `index` fails with
`FieldCountMismatch(expected, got)` where `expected` is the TOTAL column
count `len(layout.columns)` — including the `id` and `timestamp`
columns — and `got` is the caller's field count. -/
theorem index_field_count_mismatch (c : Container) (now : Int) (p : IndexParams)
    (h : (p.fields.length : Int) ≠
      (c.columns.len : Int) - 1 - (if c.config.add_timestamp_column then 1 else 0)) :
    Container.index c now p =
      IndexResult.failed c (ContainerError.FieldCountMismatch c.columns.len p.fields.length) := by
  have hc : c.columns.len ≠ (if c.config.add_timestamp_column then p.fields.length + 2
      else p.fields.length + 1) := by
    cases hts : c.config.add_timestamp_column <;> simp [hts] at h ⊢ <;> omega
  have hval : c.validate_fields p =
      .error (.FieldCountMismatch c.columns.len p.fields.length) := by
    unfold Container.validate_fields
    rw [if_pos hc]
  unfold Container.index
  rw [hval]

/-- Witness for C7 amended at the shared example container. -/
theorem index_field_count_mismatch_witness :
    Container.index c7_container 0 (IndexParams.mk ["a", "b", "c"] []) =
      IndexResult.failed c7_container (ContainerError.FieldCountMismatch 3 3) :=
  index_field_count_mismatch c7_container 0 (IndexParams.mk ["a", "b", "c"] []) (by decide)

/-! ## Claim C2: state after a failed index -/

/-- Shared example container for the missing-timestamp corruption path:
the schema configures a timestamp, but the layout (as trusted verbatim
from a persisted sidecar) has columns `id`, `url`, `points` and no
`timestamp` column. -/
def missing_ts_container : Container :=
  Container.mk
    (SchemaConfig.mk [ColumnConfig.mk "url" DataTypeConfig.String] true)
    (ColumnLayout.mk
      [empty_column "id" DataType.Int,
       empty_column "url" DataType.String,
       empty_column "points" DataType.Int]
      [("id", DataType.Int), ("url", DataType.String), ("points", DataType.Int)])
    0

/-- C2 counterexample: an `index` call that fails with
*MissingTimestampColumn* leaves `counter.current()` at 1, not at its
pre-call value 0 — the error is returned after `counter.next()` with no
rollback.  The call passes validation (3 columns = 1 field + 2), so the
failure is the staging-phase error the claim quantifies over. -/
theorem index_missing_timestamp_counterexample :
    Container.index missing_ts_container 0 (IndexParams.mk ["url"] [Json.str [104]]) =
        IndexResult.failed
          (Container.mk missing_ts_container.config missing_ts_container.columns 1)
          ContainerError.MissingTimestampColumn ∧
      missing_ts_container.index_counter = 0 ∧ (1 : Int) ≠ 0 := by
  exact ⟨rfl, rfl, by decide⟩

/-- C2 amended: after an `index` call that returns an error, every column
(and the whole layout) is exactly as before the call, and the counter is
unchanged — EXCEPT for the *MissingTimestampColumn* corruption path,
which leaves the counter incremented by one (`next()` with no rollback).
Commit-time I/O failures are not representable in the in-memory model;
on the validation and `InvalidDataType` paths this is exactly the
original claim. -/
theorem index_failure_rollback (c : Container) (now : Int) (p : IndexParams)
    (c2 : Container) (e : ContainerError)
    (h : Container.index c now p = IndexResult.failed c2 e) :
    c2.columns = c.columns ∧ c2.config = c.config ∧
    c2.index_counter =
      (if e = ContainerError.MissingTimestampColumn then c.index_counter + 1
       else c.index_counter) := by
  unfold Container.index at h
  split at h
  · rename_i e0 hval
    rw [IndexResult.failed.injEq] at h
    obtain ⟨hc2, he⟩ := h
    subst hc2
    rw [← he]
    have hshape := validate_fields_error_shape c p e0 hval
    rw [if_neg hshape.1]
    exact ⟨rfl, rfl, rfl⟩
  · split at h
    · rw [IndexResult.failed.injEq] at h
      obtain ⟨hc2, he⟩ := h
      subst hc2
      subst he
      rw [if_pos rfl]
      exact ⟨rfl, rfl, rfl⟩
    · split at h
      · exact absurd h (by simp)
      · rename_i v dt hstage
        rw [IndexResult.failed.injEq] at h
        obtain ⟨hc2, he⟩ := h
        subst hc2
        subst he
        rw [if_neg (by simp)]
        refine ⟨rfl, rfl, ?_⟩
        show c.index_counter + 1 - 1 = c.index_counter
        omega
      · split at h
        · exact absurd h (by simp)
        · exact absurd h (by simp)

/-- Witness for C2 amended: a call rejected by validation (unknown field
`"x"`) leaves the container untouched. -/
theorem index_failure_rollback_witness :
    Container.index c7_container 0 (IndexParams.mk ["x"] []) =
        IndexResult.failed c7_container (ContainerError.InvalidFields ["x"]) ∧
      c7_container.index_counter =
        (if (ContainerError.InvalidFields ["x"]) = ContainerError.MissingTimestampColumn
         then c7_container.index_counter + 1 else c7_container.index_counter) := by
  constructor
  · rfl
  · exact (index_failure_rollback c7_container 0 (IndexParams.mk ["x"] [])
      c7_container (ContainerError.InvalidFields ["x"]) rfl).2.2

/-! ## Commit characterization (toward claim C1) -/

/-- The cumulative effect of `ColumnLayout::commit` on one column: every
staged cell bearing its name is appended, in staging order. -/
def apply_pairs (pairs : List (String × Cell)) (col : Column) : Column :=
  { col with entries := col.entries ++ (pairs.filter (fun pr => pr.1 == col.name)).map Prod.snd }

theorem commit_cell_name_mem {cols : List Column} {nm : String} {cell : Cell}
    {cols2 : List Column} (h : commit_cell cols nm cell = some cols2) :
    nm ∈ cols.map Column.name := by
  induction cols generalizing cols2 with
  | nil => simp [commit_cell] at h
  | cons col cols ih =>
    unfold commit_cell at h
    split at h
    · rename_i hname
      rw [beq_iff_eq] at hname
      simp [hname]
    · rw [Option.map_eq_some'] at h
      obtain ⟨cs, hcs, -⟩ := h
      simp [ih hcs]

theorem commit_cell_eq_map {cols : List Column} {nm : String} {cell : Cell}
    {cols2 : List Column}
    (hnd : (cols.map Column.name).Nodup)
    (h : commit_cell cols nm cell = some cols2) :
    cols2 = cols.map (fun col => if col.name = nm then col.insert cell else col) := by
  induction cols generalizing cols2 with
  | nil => simp [commit_cell] at h
  | cons col cols ih =>
    rw [List.map_cons, List.nodup_cons] at hnd
    obtain ⟨hnotin, hnd2⟩ := hnd
    unfold commit_cell at h
    split at h
    · rename_i hname
      rw [beq_iff_eq] at hname
      rw [Option.some.injEq] at h
      subst h
      rw [List.map_cons, if_pos hname]
      congr 1
      have hrest : ∀ col2 ∈ cols, ¬ (col2.name = nm) := by
        intro col2 hmem heqn
        exact hnotin (by
          rw [hname, ← heqn]
          exact List.mem_map_of_mem Column.name hmem)
      rw [List.map_congr_left (fun a ha => if_neg (hrest a ha))]
      exact (List.map_id cols).symm
    · rename_i hname
      rw [Option.map_eq_some'] at h
      obtain ⟨cs, hcs, hcols2⟩ := h
      subst hcols2
      rw [List.map_cons, if_neg (by simpa using hname)]
      rw [ih hnd2 hcs]

theorem apply_pairs_cons (pr : String × Cell) (rest : List (String × Cell)) (col : Column) :
    apply_pairs (pr :: rest) col =
      apply_pairs rest (if col.name = pr.1 then col.insert pr.2 else col) := by
  by_cases hn : col.name = pr.1
  · simp [apply_pairs, Column.insert, hn, List.filter_cons]
  · have hbeq : (pr.1 == col.name) = false := by
      simp [Ne.symm hn]
    simp [apply_pairs, hn, List.filter_cons, hbeq]

theorem apply_pairs_nil (col : Column) : apply_pairs [] col = col := by
  simp [apply_pairs]

theorem commit_eq_map (pairs : List (String × Cell)) :
    ∀ (L L2 : ColumnLayout),
      (L.columns.map Column.name).Nodup →
      ColumnLayout.commit L pairs = some L2 →
      L2.columns = L.columns.map (apply_pairs pairs) ∧
      L2.column_names_ordered = L.column_names_ordered ∧
      (∀ nm ∈ pairs.map Prod.fst, nm ∈ L.columns.map Column.name) := by
  induction pairs with
  | nil =>
    intro L L2 hnd h
    rw [ColumnLayout.commit, Option.some.injEq] at h
    subst h
    refine ⟨?_, rfl, by simp⟩
    rw [List.map_congr_left (fun a _ => apply_pairs_nil a)]
    exact (List.map_id _).symm
  | cons pr rest ih =>
    intro L L2 hnd h
    unfold ColumnLayout.commit at h
    split at h
    · exact absurd h (by simp)
    · rename_i cols1 hcc
      have hc1 := commit_cell_eq_map hnd hcc
      have hnames : cols1.map Column.name = L.columns.map Column.name := by
        rw [hc1, List.map_map]
        apply List.map_congr_left
        intro col _
        by_cases hn : col.name = pr.1 <;> simp [hn, Column.insert, Function.comp]
      obtain ⟨h1, h2, h3⟩ := ih (ColumnLayout.mk cols1 L.column_names_ordered)
        L2 (by simpa [hnames]) h
      refine ⟨?_, h2, ?_⟩
      · rw [h1, hc1, List.map_map]
        apply List.map_congr_left
        intro col _
        exact (apply_pairs_cons pr rest col).symm
      · intro nm hnm
        rw [List.map_cons] at hnm
        rcases List.mem_cons.mp hnm with hnm | hnm
        · subst hnm
          exact commit_cell_name_mem hcc
        · rw [← hnames]
          exact h3 nm hnm

theorem apply_pairs_length (pairs : List (String × Cell)) (col : Column) :
    (apply_pairs pairs col).entries.length =
      col.entries.length + (pairs.map Prod.fst).count col.name := by
  simp only [apply_pairs, List.length_append, List.length_map]
  congr 1
  rw [← List.countP_eq_length_filter, List.count, List.countP_map]
  rfl

theorem stage_fields_names (c : Container) :
    ∀ (fs : List String) (vs : List Json) (pairs : List (String × Cell)),
      stage_fields c fs vs = .staged pairs → pairs.map Prod.fst = fs := by
  intro fs
  induction fs with
  | nil =>
    intro vs pairs h
    cases vs <;> (rw [stage_fields, StageResult.staged.injEq] at h; subst h; rfl)
  | cons fname fs ih =>
    intro vs pairs h
    cases vs with
    | nil => exact absurd h (by rw [stage_fields]; simp)
    | cons v vs =>
      unfold stage_fields at h
      split at h
      · exact absurd h (by simp)
      · rename_i db_column hfind
        split at h
        · split at h
          · split at h
            · rename_i pairs0 hrec
              rw [StageResult.staged.injEq] at h
              subst h
              rw [List.map_cons, ih vs pairs0 hrec]
            · rename_i hne
              exact absurd h (hne pairs)
          · exact absurd h (by simp)
        · exact absurd h (by simp)

/-! ## Claim C1: column-length invariant after a successful index -/

/-- Example container without a timestamp: layout `id: Int`,
`url: String`, `points: String`, all empty, counter 0. -/
def dup_fields_container : Container :=
  Container.mk
    (SchemaConfig.mk
      [ColumnConfig.mk "url" DataTypeConfig.String,
       ColumnConfig.mk "points" DataTypeConfig.String] false)
    (ColumnLayout.mk
      [empty_column "id" DataType.Int,
       empty_column "url" DataType.String,
       empty_column "points" DataType.String]
      [("id", DataType.Int), ("url", DataType.String), ("points", DataType.String)])
    0

/-- The container state after the duplicate-fields insertion below. -/
def dup_fields_post : Container :=
  Container.mk dup_fields_container.config
    (ColumnLayout.mk
      [Column.mk "id" DataType.Int [Cell.Int 1],
       Column.mk "url" DataType.String [Cell.String [97], Cell.String [98]],
       Column.mk "points" DataType.String []]
      [("id", DataType.Int), ("url", DataType.String), ("points", DataType.String)])
    1

/-- C1 counterexample: the params `fields = ["url","url"]` PASS validation
(2 fields for 2 user columns, both names are columns) and `index` returns
success, but afterwards the column lengths are `id = 1`, `url = 2`,
`points = 0` with counter 1 — the column-length invariant the claim
quantifies over repeated field names is violated. -/
theorem column_length_invariant_counterexample :
    Container.index dup_fields_container 0
        (IndexParams.mk ["url", "url"] [Json.str [97], Json.str [98]]) =
      IndexResult.ok dup_fields_post ∧
    dup_fields_post.columns.columns.map (fun col => col.entries.length) = [1, 2, 0] ∧
    ¬ (∀ col ∈ dup_fields_post.columns.columns,
        (col.entries.length : Int) = dup_fields_post.index_counter) := by
  refine ⟨rfl, rfl, ?_⟩
  decide

/-- C1 amended: the column-length invariant holds for every `index` call
that passes validation AND names pairwise-distinct fields none of which
is the reserved `id` column, on a container with pairwise-distinct column
names: if such a call succeeds from a state where every column's length
equals `counter.current()`, then afterwards every column's length equals
the new `counter.current()`, which is the old value plus one.  (With a
repeated field name — allowed by validation — the invariant is violated,
as the counterexample shows.) -/
theorem index_ok_column_length_invariant (c : Container) (now : Int) (p : IndexParams)
    (c2 : Container)
    (hnd : (c.columns.columns.map Column.name).Nodup)
    (hfnd : p.fields.Nodup)
    (hid : "id" ∉ p.fields)
    (hinv : ∀ col ∈ c.columns.columns, (col.entries.length : Int) = c.index_counter)
    (h : Container.index c now p = IndexResult.ok c2) :
    (∀ col ∈ c2.columns.columns, (col.entries.length : Int) = c2.index_counter) ∧
    c2.index_counter = c.index_counter + 1 := by
  unfold Container.index at h
  split at h
  · exact absurd h (by simp)
  · rename_i u hval
    split at h
    · exact absurd h (by simp)
    · rename_i hts_cond
      split at h
      · exact absurd h (by simp)
      · exact absurd h (by simp)
      · rename_i pairs hstage
        split at h
        · exact absurd h (by simp)
        · rename_i L2 hcommit
          rw [IndexResult.ok.injEq] at h
          subst h
          obtain ⟨hlen_eq, hts_not, hsub, -⟩ := validate_fields_ok_facts c p hval
          have hpnames := stage_fields_names c p.fields p.values pairs hstage
          obtain ⟨hcols2, -, hns_sub⟩ :=
            commit_eq_map _ c.columns L2 hnd hcommit
          have hns : ((("id", Cell.Int (c.index_counter + 1)) ::
              ((if c.config.add_timestamp_column then [("timestamp", Cell.Int now)] else []) ++
                pairs)).map Prod.fst) =
              "id" :: ((if c.config.add_timestamp_column then ["timestamp"] else []) ++
                p.fields) := by
            cases hts2 : c.config.add_timestamp_column <;> simp [hts2, hpnames]
          have hns_nodup : ((("id", Cell.Int (c.index_counter + 1)) ::
              ((if c.config.add_timestamp_column then [("timestamp", Cell.Int now)] else []) ++
                pairs)).map Prod.fst).Nodup := by
            rw [hns]
            cases hts2 : c.config.add_timestamp_column with
            | false =>
              rw [if_neg (by decide), List.nil_append, List.nodup_cons]
              exact ⟨hid, hfnd⟩
            | true =>
              have hts3 := hts_not hts2
              rw [if_pos rfl, List.singleton_append, List.nodup_cons, List.nodup_cons,
                List.mem_cons]
              refine ⟨?_, hts3, hfnd⟩
              push_neg
              exact ⟨by decide, hid⟩
          have hlen2 : ((("id", Cell.Int (c.index_counter + 1)) ::
              ((if c.config.add_timestamp_column then [("timestamp", Cell.Int now)] else []) ++
                pairs)).map Prod.fst).length =
              (c.columns.columns.map Column.name).length := by
            rw [hns]
            simp only [ColumnLayout.len] at hlen_eq
            cases hts2 : c.config.add_timestamp_column <;>
              simp only [hts2, if_pos rfl, if_neg (by simp : ¬ (false = true))] at hlen_eq ⊢ <;>
              simp [hlen_eq]
          have hperm := (hns_nodup.subperm (fun a ha => hns_sub a ha)).perm_of_length_le
            (le_of_eq hlen2.symm)
          have hcount : ∀ col ∈ c.columns.columns,
              ((("id", Cell.Int (c.index_counter + 1)) ::
                ((if c.config.add_timestamp_column then [("timestamp", Cell.Int now)] else []) ++
                  pairs)).map Prod.fst).count col.name = 1 := by
            intro col hcol
            exact List.count_eq_one_of_mem hns_nodup
              (hperm.mem_iff.mpr (List.mem_map_of_mem Column.name hcol))
          refine ⟨?_, rfl⟩
          intro col2 hcol2
          rw [show (Container.mk c.config L2 (c.index_counter + 1)).columns = L2 from rfl,
            hcols2, List.mem_map] at hcol2
          obtain ⟨col, hcol, rfl⟩ := hcol2
          rw [apply_pairs_length, hcount col hcol]
          have hx := hinv col hcol
          show ((col.entries.length + 1 : Nat) : Int) = c.index_counter + 1
          push_cast
          omega

/-- Witness for C1 amended: inserting distinct fields `url`, `points`
into the example container preserves the invariant and bumps the counter
to `0 + 1`. -/
theorem index_ok_column_length_invariant_witness :
    (Container.mk dup_fields_container.config
        (ColumnLayout.mk
          [Column.mk "id" DataType.Int [Cell.Int 1],
           Column.mk "url" DataType.String [Cell.String [97]],
           Column.mk "points" DataType.String [Cell.String [98]]]
          [("id", DataType.Int), ("url", DataType.String),
           ("points", DataType.String)]) 1).index_counter =
      dup_fields_container.index_counter + 1 :=
  (index_ok_column_length_invariant dup_fields_container 0
    (IndexParams.mk ["url", "points"] [Json.str [97], Json.str [98]])
    (Container.mk dup_fields_container.config
      (ColumnLayout.mk
        [Column.mk "id" DataType.Int [Cell.Int 1],
         Column.mk "url" DataType.String [Cell.String [97]],
         Column.mk "points" DataType.String [Cell.String [98]]]
        [("id", DataType.Int), ("url", DataType.String),
         ("points", DataType.String)]) 1)
    (by decide) (by decide) (by decide) (by decide) rfl).2

/-! ## Filter pipeline (`src/server/src/query/code_runner.rs` and the
`InvokeMap` arm of `src/server/src/main.rs`) -/

/-- Narrowing an `i64` to an `i32` (Rust `as i32`): keep the low 32 bits,
reinterpreted as a signed value. -/
def to_i32 (v : Int) : Int :=
  if v % 2 ^ 32 < 2 ^ 31 then v % 2 ^ 32 else v % 2 ^ 32 - 2 ^ 32

/-- Outcome of `CodeRunner::run_map` on one row.  `panicked` is the
`row.first().unwrap()` on an empty row; `error` is the `anyhow!` early
return when the first cell is not an integer (module-load or call
failures of the host runtime are outside the model — `run` abstracts a
successfully instantiated sandbox entry point). -/
inductive RunMapResult where
  | panicked
  | error
  | ok (ret : Int)
deriving DecidableEq, Repr

/-- `CodeRunner::run_map`: take the FIRST cell of the row
(`row.first().unwrap()`), require it to be an integer, call the exported
`run : (i32) → i32` with the value narrowed to 32 bits, and return the
raw `i32` result. -/
def run_map (run : Int → Int) (row : ColumnFrame) : RunMapResult :=
  match row.column_values with
  | [] => .panicked
  | cell :: _ =>
    match cell with
    | .Int num => .ok (run (to_i32 num))
    | _ => .error

/-- Result of the `InvokeMap` consumption loop: the accumulator sent on
the reply channel, or a propagated panic. -/
inductive InvokeMapResult where
  | panicked
  | ok (rows : List ColumnFrame)
deriving DecidableEq, Repr

/-- Whether the `InvokeMap` loop keeps a row: the filter ran successfully
and returned a nonzero value. -/
def filter_keeps (run : Int → Int) (row : ColumnFrame) : Bool :=
  match run_map run row with
  | .ok ret => ret ≠ 0
  | _ => false

/-- The `InvokeMap` arm of the command loop: for each received row invoke
the filter; on success push the row when the result is nonzero; on error
log and skip the row; a panic aborts the loop. -/
def invoke_map (run : Int → Int) : List ColumnFrame → InvokeMapResult
  | [] => .ok []
  | row :: rest =>
    match run_map run row with
    | .panicked => .panicked
    | .error => invoke_map run rest
    | .ok ret =>
      match invoke_map run rest with
      | .panicked => .panicked
      | .ok rows => .ok (if ret ≠ 0 then row :: rows else rows)

/-! ## Claim C3: what the filter adapter passes to the sandbox -/

/-- C3 counterexample: on the frame `{id: 7, timestamp: 100}` the filter
adapter calls the sandbox with 7 — the FIRST cell of the frame (the `id`
cell), not the `timestamp` cell 100 — and on an empty frame it PANICS
(`row.first().unwrap()`) instead of returning an error.  The identity
sandbox exposes the argument as the return value. -/
theorem run_map_counterexample :
    run_map (fun x => x) (ColumnFrame.mk ["id", "timestamp"] [Cell.Int 7, Cell.Int 100]) =
        RunMapResult.ok 7 ∧
      run_map (fun x => x) (ColumnFrame.mk [] []) = RunMapResult.panicked ∧
      (7 : Int) ≠ 100 := by
  exact ⟨rfl, rfl, by decide⟩

/-- C3 amended: the argument passed to the sandboxed entry point is the
value of the frame's FIRST cell — the `id` cell, given the layout order —
narrowed to 32 bits (a value `w` congruent to it modulo `2^32` with
`-2^31 ≤ w < 2^31`); execute PANICS on an empty frame, returns an error
(not a panic) when the first cell is not an integer; and the caller
treats the result as true iff the returned `i32` is nonzero (see
`filter_keeps`/C6). -/
theorem run_map_first_cell_semantics (run : Int → Int) (row : ColumnFrame) :
    (row.column_values = [] → run_map run row = RunMapResult.panicked) ∧
    (∀ v rest, row.column_values = Cell.Int v :: rest →
      run_map run row = RunMapResult.ok (run (to_i32 v)) ∧
      -(2 ^ 31) ≤ to_i32 v ∧ to_i32 v < 2 ^ 31 ∧ (2 ^ 32 : Int) ∣ (v - to_i32 v) ∧
      (filter_keeps run row = true ↔ run (to_i32 v) ≠ 0)) ∧
    (∀ cell rest, row.column_values = cell :: rest → (∀ v, cell ≠ Cell.Int v) →
      run_map run row = RunMapResult.error) := by
  refine ⟨?_, ?_, ?_⟩
  · intro hnil
    unfold run_map
    rw [hnil]
  · intro v rest hcons
    have hrm : run_map run row = RunMapResult.ok (run (to_i32 v)) := by
      unfold run_map
      rw [hcons]
    refine ⟨hrm, ?_, ?_, ?_, ?_⟩
    · unfold to_i32
      have h1 := Int.emod_nonneg v (show (2 ^ 32 : Int) ≠ 0 by norm_num)
      split <;> omega
    · unfold to_i32
      have h2 := Int.emod_lt_of_pos v (show (0 : Int) < 2 ^ 32 by norm_num)
      split <;> omega
    · unfold to_i32
      have h3 := Int.emod_emod_of_dvd v (show (2 ^ 32 : Int) ∣ 2 ^ 32 from dvd_refl _)
      have h4 : (2 ^ 32 : Int) ∣ (v - v % 2 ^ 32) := Int.dvd_sub_of_emod_eq rfl
      split
      · exact h4
      · have : v - (v % 2 ^ 32 - 2 ^ 32) = (v - v % 2 ^ 32) + 2 ^ 32 := by ring
        rw [this]
        exact dvd_add h4 (dvd_refl _)
    · unfold filter_keeps
      rw [hrm]
      simp
  · intro cell rest hcons hnotint
    unfold run_map
    rw [hcons]
    match cell, hnotint with
    | .Float bits, _ => rfl
    | .String s, _ => rfl
    | .Boolean b, _ => rfl
    | .Int v, hni => exact absurd rfl (hni v)

/-- Witness for C3 amended: the identity sandbox applied to a frame whose
first cell is the integer `2^32` is called with the narrowed argument
0. -/
theorem run_map_first_cell_semantics_witness :
    run_map (fun x => x) (ColumnFrame.mk ["id"] [Cell.Int 4294967296]) =
      RunMapResult.ok 0 := by
  have h := ((run_map_first_cell_semantics (fun x => x)
      (ColumnFrame.mk ["id"] [Cell.Int 4294967296])).2.1 4294967296 [] rfl).1
  have h0 : to_i32 4294967296 = 0 := by decide
  rw [h0] at h
  exact h

/-! ## Claim C6: the InvokeMap accumulator -/

theorem all_rows_frames_nonempty {L : ColumnLayout} {frames : List ColumnFrame}
    (h : L.all_rows = some frames) :
    ∀ f ∈ frames, f.column_values ≠ [] := by
  unfold ColumnLayout.all_rows at h
  split at h
  · exact absurd h (by simp)
  · rename_i c0 rest heq
    split at h
    · rw [Option.some.injEq] at h
      subst h
      intro f hf
      rw [List.mem_map] at hf
      obtain ⟨n, -, rfl⟩ := hf
      unfold frame_at
      rw [heq]
      simp
    · exact absurd h (by simp)

/-- C6: over the rows of a container (`all_rows` output), the accumulator
sent on the reply channel is exactly the in-order subsequence of rows for
which the filter ran successfully and returned nonzero (`filter_keeps`);
a row on which the filter errors is logged and skipped, and the query as
a whole still succeeds (no panic) with the remaining rows. -/
theorem invoke_map_filters (run : Int → Int) (L : ColumnLayout)
    (frames : List ColumnFrame) (h : L.all_rows = some frames) :
    invoke_map run frames = InvokeMapResult.ok (frames.filter (filter_keeps run)) := by
  have hne := all_rows_frames_nonempty h
  clear h
  induction frames with
  | nil => rfl
  | cons row rest ih =>
    have hrow := hne row (by simp)
    have hrest : ∀ f ∈ rest, f.column_values ≠ [] := by
      intro f hf
      exact hne f (List.mem_cons_of_mem row hf)
    unfold invoke_map
    match hrm : run_map run row with
    | .panicked =>
      exfalso
      unfold run_map at hrm
      split at hrm
      · exact hrow (by assumption)
      · split at hrm <;> exact absurd hrm (by simp)
    | .error =>
      rw [ih hrest, List.filter_cons, show filter_keeps run row = false from by
        unfold filter_keeps
        rw [hrm]]
      rfl
    | .ok ret =>
      rw [ih hrest, List.filter_cons, show filter_keeps run row = decide (ret ≠ 0) from by
        unfold filter_keeps
        rw [hrm]]
      by_cases hz : ret = 0
      · subst hz
        simp
      · simp [hz]

/-- Witness for C6: a single-row, single-column layout with an
always-true filter returns exactly that row. -/
theorem invoke_map_filters_witness :
    invoke_map (fun _ => 1)
        [ColumnFrame.mk ["id"] [Cell.Int 1]] =
      InvokeMapResult.ok [ColumnFrame.mk ["id"] [Cell.Int 1]] := by
  have h := invoke_map_filters (fun _ => 1)
    (ColumnLayout.mk [Column.mk "id" DataType.Int [Cell.Int 1]] [("id", DataType.Int)])
    [ColumnFrame.mk ["id"] [Cell.Int 1]] rfl
  exact h

/-! ## On-disk state and container opening (`Container::new`,
`ColumnLayout::load`, `AutoIndex::load_or_new`) -/

/-- The root directory: the parsed `column_layout.json` sidecar (absent ↔
`NotFound`), the raw bytes of each `column_<name>` file, and the parsed
`auto_index` sidecar (`none` abstracts every read/parse failure, which
`load_or_new` tolerates). -/
structure Disk where
  layout_file : Option (List (String × DataType))
  column_files : List (String × List Nat)
  auto_index_file : Option Int
deriving DecidableEq, Repr

/-- The bytes of `column_<nm>`, when the file exists. -/
def lookup_file (d : Disk) (nm : String) : Option (List Nat) :=
  (d.column_files.find? (fun pr => pr.1 == nm)).map Prod.snd

/-- `OpenOptions::create(true)`: create the column file (empty) if it
does not exist yet. -/
def ensure_file (d : Disk) (nm : String) : Disk :=
  if (d.column_files.find? (fun pr => pr.1 == nm)).isSome then d
  else { d with column_files := d.column_files ++ [(nm, [])] }

/-- `AutoIndex::load_or_new`: any read or parse failure degrades to a
fresh zero counter. -/
def auto_index_load_or_new (d : Disk) : Int :=
  match d.auto_index_file with
  | some n => n
  | none => 0

/-- `Column::new` followed by `Column::load`: open (creating if absent)
and replay the file; `none` is the replay panic. -/
def open_and_load_column (d : Disk) (nm : String) (dt : DataType) :
    Option (Column × Disk) :=
  match column_load ((lookup_file d nm).getD []) with
  | .panicked => none
  | .ok cells => some (Column.mk nm dt cells, ensure_file d nm)

/-- The loop of `ColumnLayout::load`: open and replay each persisted
column in sidecar order. -/
def load_columns (d : Disk) : List (String × DataType) → Option (List Column × Disk)
  | [] => some ([], d)
  | (nm, dt) :: rest =>
    match open_and_load_column d nm dt with
    | none => none
    | some (col, d1) =>
      match load_columns d1 rest with
      | none => none
      | some (cols, d2) => some (col :: cols, d2)

/-- `Container::new`.  With the sidecar present it is trusted verbatim
and the columns are replayed from their files; with it absent a fresh
layout is built — an `id` column (created but NOT loaded), the schema's
user columns and the optional `timestamp` column (both loaded) — and the
sidecar is persisted.  `none` is a replay panic. -/
def Container.new (d : Disk) (config : SchemaConfig) : Option (Container × Disk) :=
  match d.layout_file with
  | some entries =>
    match load_columns d entries with
    | none => none
    | some (cols, d1) =>
      some (Container.mk config (ColumnLayout.mk cols entries)
        (auto_index_load_or_new d), d1)
  | none =>
    match load_columns (ensure_file d "id")
        (config.columns.map (fun cc => (cc.name, cc.data_type.toDataType))) with
    | none => none
    | some (ucols, d1) =>
      if config.add_timestamp_column then
        match open_and_load_column d1 "timestamp" DataType.Int with
        | none => none
        | some (ts_col, d2) =>
          some (Container.mk config
            (ColumnLayout.mk (Column.mk "id" DataType.Int [] :: (ucols ++ [ts_col]))
              (("id", DataType.Int) ::
                (config.columns.map (fun cc => (cc.name, cc.data_type.toDataType)) ++
                  [("timestamp", DataType.Int)])))
            (auto_index_load_or_new d),
            { d2 with layout_file := some (("id", DataType.Int) ::
              (config.columns.map (fun cc => (cc.name, cc.data_type.toDataType)) ++
                [("timestamp", DataType.Int)])) })
      else
        some (Container.mk config
          (ColumnLayout.mk (Column.mk "id" DataType.Int [] :: ucols)
            (("id", DataType.Int) ::
              config.columns.map (fun cc => (cc.name, cc.data_type.toDataType))))
          (auto_index_load_or_new d),
          { d1 with layout_file := some (("id", DataType.Int) ::
            config.columns.map (fun cc => (cc.name, cc.data_type.toDataType))) })

/-! ## Claim C8: restart equivalence -/

theorem ensure_file_layout (d : Disk) (nm : String) :
    (ensure_file d nm).layout_file = d.layout_file ∧
    (ensure_file d nm).auto_index_file = d.auto_index_file := by
  unfold ensure_file
  split <;> exact ⟨rfl, rfl⟩

theorem ensure_file_of_present {d : Disk} {nm : String} {B : List Nat}
    (h : lookup_file d nm = some B) : ensure_file d nm = d := by
  unfold ensure_file
  unfold lookup_file at h
  rw [Option.map_eq_some'] at h
  obtain ⟨pr, hpr, -⟩ := h
  rw [if_pos (by rw [hpr]; rfl)]

theorem lookup_ensure_self (d : Disk) (nm : String) :
    lookup_file (ensure_file d nm) nm = some ((lookup_file d nm).getD []) := by
  unfold ensure_file lookup_file
  split
  · rename_i hsome
    rw [Option.isSome_iff_exists] at hsome
    obtain ⟨pr, hpr⟩ := hsome
    rw [hpr]
    rfl
  · rename_i hnone
    have hfn : List.find? (fun pr => pr.1 == nm) d.column_files = none := by
      cases hf : List.find? (fun pr => pr.1 == nm) d.column_files with
      | none => rfl
      | some pr => rw [hf] at hnone; simp at hnone
    dsimp only
    rw [List.find?_append, hfn]
    simp

theorem lookup_ensure_other {d : Disk} {nm nm2 : String} {B : List Nat}
    (h : lookup_file d nm2 = some B) :
    lookup_file (ensure_file d nm) nm2 = some B := by
  unfold ensure_file
  split
  · exact h
  · unfold lookup_file at h ⊢
    rw [Option.map_eq_some'] at h
    obtain ⟨pr, hpr, hsnd⟩ := h
    rw [List.find?_append, hpr]
    simp [hsnd]

theorem open_and_load_column_spec {d : Disk} {nm : String} {dt : DataType}
    {col : Column} {d1 : Disk}
    (h : open_and_load_column d nm dt = some (col, d1)) :
    d1.layout_file = d.layout_file ∧ d1.auto_index_file = d.auto_index_file ∧
    (∀ nm2 B, lookup_file d nm2 = some B → lookup_file d1 nm2 = some B) ∧
    ∃ B, lookup_file d1 nm = some B ∧ column_load B = .ok col.entries ∧
      col.name = nm ∧ col.data_type = dt := by
  unfold open_and_load_column at h
  split at h
  · exact absurd h (by simp)
  · rename_i cells hload
    rw [Option.some.injEq, Prod.mk.injEq] at h
    obtain ⟨hcol, hd1⟩ := h
    subst hd1
    subst hcol
    refine ⟨(ensure_file_layout d nm).1, (ensure_file_layout d nm).2, ?_, ?_⟩
    · intro nm2 B hB
      exact lookup_ensure_other hB
    · exact ⟨(lookup_file d nm).getD [], lookup_ensure_self d nm, hload, rfl, rfl⟩

theorem load_columns_stable :
    ∀ (entries : List (String × DataType)) (d : Disk) (cols : List Column) (d1 : Disk),
      load_columns d entries = some (cols, d1) →
      d1.layout_file = d.layout_file ∧ d1.auto_index_file = d.auto_index_file ∧
      (∀ nm B, lookup_file d nm = some B → lookup_file d1 nm = some B) ∧
      load_columns d1 entries = some (cols, d1) := by
  intro entries
  induction entries with
  | nil =>
    intro d cols d1 h
    rw [load_columns, Option.some.injEq, Prod.mk.injEq] at h
    obtain ⟨hc, hd⟩ := h
    subst hc
    subst hd
    exact ⟨rfl, rfl, fun _ _ hB => hB, rfl⟩
  | cons e rest ih =>
    intro d cols d1 h
    obtain ⟨nm, dt⟩ := e
    unfold load_columns at h
    split at h
    · exact absurd h (by simp)
    · rename_i col d0 hopen
      split at h
      · exact absurd h (by simp)
      · rename_i cols2 d2 hrest
        rw [Option.some.injEq, Prod.mk.injEq] at h
        obtain ⟨hc, hd⟩ := h
        subst hc
        subst hd
        obtain ⟨hol, hoa, host, B, hB, hload, hname, hdt⟩ :=
          open_and_load_column_spec hopen
        obtain ⟨hrl, hra, hrst, hragain⟩ := ih d0 cols2 d2 hrest
        have hB1 : lookup_file d2 nm = some B := hrst nm B hB
        have hopen2 : open_and_load_column d2 nm dt = some (col, d2) := by
          unfold open_and_load_column
          rw [hB1]
          show (match column_load B with
            | .panicked => none
            | .ok cells => some (Column.mk nm dt cells, ensure_file d2 nm)) = _
          rw [hload, ensure_file_of_present hB1]
          cases col with
          | mk cname cdt centries =>
            simp only [Option.some.injEq, Prod.mk.injEq, Column.mk.injEq]
            exact ⟨⟨hname.symm, hdt.symm, trivial⟩, trivial⟩
        refine ⟨by rw [hrl, hol], by rw [hra, hoa], ?_, ?_⟩
        · intro nm2 B2 hB2
          exact hrst nm2 B2 (host nm2 B2 hB2)
        · rw [load_columns]
          simp only [hopen2, hragain]

theorem column_load_eof {s : List Nat} (h : process_record s = RecordResult.eof) :
    column_load s = LoadResult.ok [] := by
  rw [column_load]
  split
  · rfl
  · rename_i heq
    rw [h] at heq
    exact absurd heq (by simp)
  · rename_i heq
    rw [h] at heq
    exact absurd heq (by simp)
  · rename_i c rest heq
    rw [h] at heq
    exact absurd heq (by simp)

/-- C8: for any directory state whose layout sidecar is present (true of
every state produced by a sequence of successful operations — the first
open persists the sidecar), opening the container twice with the same
schema and no intervening writes yields containers with identical
`all_rows()` output; in fact the two containers are equal and the second
open does not change the disk. -/
theorem open_twice_same_all_rows (d : Disk) (config : SchemaConfig)
    (entries : List (String × DataType)) (hside : d.layout_file = some entries)
    (c1 : Container) (d1 : Disk) (c2 : Container) (d2 : Disk)
    (h1 : Container.new d config = some (c1, d1))
    (h2 : Container.new d1 config = some (c2, d2)) :
    c1.columns.all_rows = c2.columns.all_rows ∧ c1 = c2 ∧ d2 = d1 := by
  unfold Container.new at h1 h2
  rw [hside] at h1
  dsimp only at h1
  split at h1
  · exact absurd h1 (by simp)
  · rename_i cols d1x hlc
    rw [Option.some.injEq, Prod.mk.injEq] at h1
    obtain ⟨hc1, hd1⟩ := h1
    subst hd1
    obtain ⟨hlay, hauto, -, hagain⟩ := load_columns_stable entries d cols d1x hlc
    rw [hside] at hlay
    rw [hlay] at h2
    dsimp only at h2
    simp only [hagain] at h2
    rw [Option.some.injEq, Prod.mk.injEq] at h2
    obtain ⟨hc2, hd2⟩ := h2
    have hautoeq : auto_index_load_or_new d1x = auto_index_load_or_new d := by
      unfold auto_index_load_or_new
      rw [hauto]
    subst hc1
    subst hc2
    subst hd2
    refine ⟨rfl, ?_, rfl⟩
    rw [hautoeq]

/-- A one-column directory state for the witness below. -/
def c8_disk : Disk :=
  Disk.mk (some [("id", DataType.Int)]) [("id", [])] none

/-- Witness for C8: opening the one-column directory yields the same
container and the same `all_rows()` output both times. -/
theorem open_twice_same_all_rows_witness :
    Container.new c8_disk (SchemaConfig.mk [] false) =
      some (Container.mk (SchemaConfig.mk [] false)
        (ColumnLayout.mk [Column.mk "id" DataType.Int []] [("id", DataType.Int)]) 0,
        c8_disk) ∧
    (Container.mk (SchemaConfig.mk [] false)
      (ColumnLayout.mk [Column.mk "id" DataType.Int []] [("id", DataType.Int)])
      0).columns.all_rows =
    (Container.mk (SchemaConfig.mk [] false)
      (ColumnLayout.mk [Column.mk "id" DataType.Int []] [("id", DataType.Int)])
      0).columns.all_rows := by
  have h0 : column_load ((lookup_file c8_disk "id").getD []) = LoadResult.ok [] :=
    column_load_eof rfl
  have hopen : open_and_load_column c8_disk "id" DataType.Int =
      some (Column.mk "id" DataType.Int [], c8_disk) := by
    unfold open_and_load_column
    simp only [h0]
    rw [ensure_file_of_present (show lookup_file c8_disk "id" = some [] from rfl)]
  have hlc : load_columns c8_disk [("id", DataType.Int)] =
      some ([Column.mk "id" DataType.Int []], c8_disk) := by
    rw [load_columns]
    simp only [hopen]
    rfl
  have h1 : Container.new c8_disk (SchemaConfig.mk [] false) =
      some (Container.mk (SchemaConfig.mk [] false)
        (ColumnLayout.mk [Column.mk "id" DataType.Int []] [("id", DataType.Int)]) 0,
        c8_disk) := by
    unfold Container.new
    simp only [show c8_disk.layout_file = some [("id", DataType.Int)] from rfl, hlc]
    rfl
  exact ⟨h1, (open_twice_same_all_rows c8_disk (SchemaConfig.mk [] false)
    [("id", DataType.Int)] rfl _ _ _ _ h1 h1).1⟩
